import Mathlib

/-!
Verification development for the shelter observation client
(`shelter_ui`): a shallow embedding of the store mutators
(`appStore.ts`), the snapshot client (`services/api.ts`), the
settlement effect (`AIStatusPanel.tsx`) and the action-stream /
overlay logic (`AIActionInfoStream.tsx`), together with theorems
about the polling loop, the history merge engine, the step
derivation and the overlay geometry.

JavaScript numbers are modelled as `Int` (coordinates, timestamps,
resources) or `Nat` (day counters); the backend efficiency fraction
is modelled as `ℚ`.  `Option` models optional / possibly-`undefined`
fields, and an `Option` result models a fallible request (`none` is
a transport error or timeout).  JS `Record` objects keyed by strings
are modelled as total functions to lists with the `|| []` default
applied, and the ES `Map` is modelled as an insertion-ordered
association list.
-/

namespace ShelterUI

/-- One planned action of an agent (`AIAction` in `types/index.ts`). -/
structure AIAction where
  type : String
  target : Option String := none
  content : Option String := none
  message : Option String := none
  proposalId : Option String := none
  vote : Option String := none
  reasoning : Option String := none
  initiator : Option String := none
deriving Repr, DecidableEq

/-- A full agent decision as the client receives it (`AIDecision`). -/
structure AIDecision where
  name : String
  resourceRequest : Int
  actions : List AIAction
  thinking : String
  day : Nat
  actionPoints : Int
deriving Repr, DecidableEq

/-- Per-agent live status inside a live-state poll (`AIRealTimeDecision`). -/
structure AIRealTimeDecision where
  aiName : String
  health : Int
  actionPoints : Int
  decision : String
  currentAction : String
  resourceRequest : Int
  lastAllocated : Int
  phase : String
  isActing : Bool
  actions : Option (List AIAction) := none
  timestamp : Int
deriving Repr, DecidableEq

/-- Response of `GET live_state` (`LiveStateResponse`). -/
structure LiveStateResponse where
  day : Nat
  running : Bool
  current_acting_ai : Option String := none
  current_ai_states : List AIRealTimeDecision
  system_phase : String
  last_update : Int
deriving Repr, DecidableEq

/-- System status as exposed to the UI (`SystemState`). -/
structure SystemState where
  day : Nat
  remainingResources : Int
  totalResources : Int
  systemEfficiency : Int
  eliminationCount : Int
  allocationMethod : String
  tokenBudget : Int
  totalTokenConsumed : Int
deriving Repr, DecidableEq

/-- A single vote inside a proposal (`VoteRecord`). -/
structure VoteRecord where
  aiName : String
  vote : String
  timestamp : Int
  reasoning : Option String := none
deriving Repr, DecidableEq

/-- A proposal (`Proposal`); `createdAt` is the creation timestamp the
merged read view sorts by. -/
structure Proposal where
  id : String
  proposer : String
  type : String
  content : String
  status : String
  supporters : List String
  opposers : List String
  proposalDay : Option Nat := none
  voteHistory : List VoteRecord
  createdAt : Int
deriving Repr, DecidableEq

/-- A game event (`GameEvent`); `timestamp` is the sort key of the
merged read view. -/
structure GameEvent where
  id : String
  type : String
  timestamp : Int
  day : Option Nat := none
  description : String
  actors : List String
  emotionalImpact : Option Int := none
deriving Repr, DecidableEq

/-- A vote analysis entry (`VoteAnalysis`). -/
structure VoteAnalysis where
  proposalId : String
  totalVotes : Int
  supportPercentage : ℚ
  oppositionPercentage : ℚ
  keyInfluencers : List String
  controversyScore : ℚ
deriving Repr, DecidableEq

/-- A chat message (`ChatMessage`). -/
structure ChatMessage where
  id : String
  sender : String
  receiver : String
  content : String
  timestamp : Int
  type : String
deriving Repr, DecidableEq

/-- A resource allocation entry (`ResourceAllocation`). -/
structure ResourceAllocation where
  aiName : String
  requested : Int
  allocated : Int
  reason : String
  timestamp : Int
deriving Repr, DecidableEq

/-- Behaviour statistics of one agent (`AIBehaviorStats`). -/
structure AIBehaviorStats where
  aiName : String
  totalActions : Nat
  votesCast : Nat
  proposalsMade : Nat
  resourcesRequested : Nat
  chatMessages : Nat
  cooperationScore : Int
  aggressionScore : Int
  survivalInstinct : Int
deriving Repr, DecidableEq

/-- One node of the social network view (`SocialNode`). -/
structure SocialNode where
  id : String
  label : String
  group : String
  size : Int
deriving Repr, DecidableEq

/-- One edge of the social network view (`SocialEdge`). -/
structure SocialEdge where
  from_ : String
  to_ : String
  value : Int
  label : String
deriving Repr, DecidableEq

/-- The social network view (`SocialNetwork`). -/
structure SocialNetwork where
  nodes : List SocialNode
  edges : List SocialEdge
deriving Repr, DecidableEq

/-- One agent of the agent list (`AIState`). -/
structure AIState where
  name : String
  health : Int
  alive : Bool
  actionPoints : Int
  lastRequest : Int
  tokenConsumed : Int
deriving Repr, DecidableEq

/-- Control panel preferences (`ControlState`). -/
structure ControlState where
  autoRun : Bool
  speed : String
  lastUpdate : Int
  updateInterval : Int
deriving Repr, DecidableEq

/-- One per-agent decision history record as stored in
`aiDecisionHistory` (`appStore.ts` lines 16-23). -/
structure HistoryRecord where
  day : Nat
  thinking : String
  actions : List AIAction
  resourceRequest : Int
  actionPoints : Int
  timestamp : Int
deriving Repr, DecidableEq

/-- One day bucket of the day-keyed history map (`appStore.ts`
lines 10-14). -/
structure DayBucket where
  proposals : List Proposal
  events : List GameEvent
  voteAnalyses : List VoteAnalysis
deriving Repr, DecidableEq

/-- The whole zustand store state (`AppStore` in `appStore.ts`).
`history` is the day-keyed bucket map kept in JS-object key order;
`aiDecisionHistory` is the per-agent record, modelled as a total
function where absent agents give `[]` (the `|| []` default the code
applies on every read). -/
structure AppStore where
  aiList : List AIState
  systemState : SystemState
  proposals : List Proposal
  events : List GameEvent
  chatMessages : List ChatMessage
  resourceAllocations : List ResourceAllocation
  voteAnalyses : List VoteAnalysis
  behaviorStats : List AIBehaviorStats
  socialNetwork : SocialNetwork
  loading : Bool
  error : Option String
  controlState : ControlState
  liveState : LiveStateResponse
  lastRunningState : Bool
  history : List (Nat × DayBucket)
  aiDecisionHistory : String → List HistoryRecord

/-- The fallback live state used by `shelterAPI.getLiveState`
(`services/api.ts` lines 330-344). -/
def defaultLiveState : LiveStateResponse :=
  { day := 0
    running := false
    current_ai_states := []
    system_phase := "idle"
    last_update := 0 }

/-- Initial store state (`appStore.ts` lines 61-100). -/
def initialAppStore : AppStore :=
  { aiList := []
    systemState :=
      { day := 0
        remainingResources := 5000
        totalResources := 5000
        systemEfficiency := 100
        eliminationCount := 0
        allocationMethod := ""
        tokenBudget := 0
        totalTokenConsumed := 0 }
    proposals := []
    events := []
    chatMessages := []
    resourceAllocations := []
    voteAnalyses := []
    behaviorStats := []
    socialNetwork := { nodes := [], edges := [] }
    loading := false
    error := none
    controlState :=
      { autoRun := false, speed := "normal", lastUpdate := 0, updateInterval := 5000 }
    liveState := { defaultLiveState with current_acting_ai := none }
    lastRunningState := false
    history := []
    aiDecisionHistory := fun _ => [] }

/-- The safe API wrapper (`safeApiCall`, `services/api.ts` lines
52-63): a `none` call result models the underlying request throwing
(transport error or timeout); the wrapper catches, logs a warning
and returns the fallback instead of rethrowing. -/
def safeApiCall {T : Type} (apiCall : Option T) (fallback : T) : T :=
  apiCall.getD fallback

/-- `shelterAPI.getLiveState` (`services/api.ts` lines 326-347): both a
failed request and a response without a `data` payload collapse to
the default live state, so the function never throws. -/
def shelterGetLiveState (response : Option LiveStateResponse) : LiveStateResponse :=
  safeApiCall response defaultLiveState

/-- One polling tick (`pollLiveState`, `appStore.ts` lines 345-360):
the fetched (or defaulted) live state replaces `liveState` after the
previous `running` flag is copied into `lastRunningState`.  The
`catch` branch of the source can only fire if `set` itself throws,
because `shelterAPI.getLiveState` never rejects; a failed fetch
reaches the `set` call carrying the default live state. -/
def pollLiveState (s : AppStore) (fetched : Option LiveStateResponse) : AppStore :=
  let liveState := shelterGetLiveState fetched
  { s with lastRunningState := s.liveState.running, liveState := liveState }

/-- The loosely-typed `decision: any` payload handed to
`saveAIDecisionToHistory`; every field is coalesced with `|| default`
before being stored. -/
structure DecisionInput where
  thinking : Option String := none
  actions : Option (List AIAction) := none
  resourceRequest : Option Int := none
  actionPoints : Option Int := none
deriving Repr, DecidableEq

/-- The `newRecord` object built inside `saveAIDecisionToHistory`
(`appStore.ts` lines 599-606); `now` stands for `Date.now()`. -/
def mkHistoryRecord (currentDay : Nat) (decision : DecisionInput) (now : Int) : HistoryRecord :=
  { day := currentDay
    thinking := decision.thinking.getD ""
    actions := decision.actions.getD []
    resourceRequest := decision.resourceRequest.getD 0
    actionPoints := decision.actionPoints.getD 0
    timestamp := now }

/-- `aiHistory.findIndex(h => h.day === currentDay)` — the index of
the first record for `currentDay`, `none` for the JS `-1`. -/
def findIndexDay (l : List HistoryRecord) (currentDay : Nat) : Option Nat :=
  match l with
  | [] => none
  | h :: t => if h.day = currentDay then some 0 else (findIndexDay t currentDay).map (· + 1)

/-- The upsert step of `saveAIDecisionToHistory` (`appStore.ts`
lines 608-616): replace the first same-day record in place, or
prepend the new record. -/
def upsertByDay (aiHistory : List HistoryRecord) (newRecord : HistoryRecord)
    (currentDay : Nat) : List HistoryRecord :=
  match findIndexDay aiHistory currentDay with
  | some existingIndex => aiHistory.set existingIndex newRecord
  | none => newRecord :: aiHistory

/-- The cap step of `saveAIDecisionToHistory` (`appStore.ts` lines
618-621): keep only the first 10 records. -/
def truncate10 (l : List HistoryRecord) : List HistoryRecord :=
  if l.length > 10 then l.take 10 else l

/-- `saveAIDecisionToHistory` (`appStore.ts` lines 583-635): skip day
0 entirely, otherwise upsert the new record into the agent's list
and cap the list at 10 entries. -/
def saveAIDecisionToHistory (s : AppStore) (aiName : String) (decision : DecisionInput)
    (day? : Option Nat) (now : Int) : AppStore :=
  let currentDay := day?.getD s.systemState.day
  if currentDay = 0 then s
  else
    let aiHistory := s.aiDecisionHistory aiName
    let newRecord := mkHistoryRecord currentDay decision now
    let updatedHistory := truncate10 (upsertByDay aiHistory newRecord currentDay)
    { s with
      aiDecisionHistory := fun n => if n = aiName then updatedHistory else s.aiDecisionHistory n }

/-- One recorded invocation of `saveAIDecisionToHistory`. -/
structure SaveCall where
  aiName : String
  decision : DecisionInput
  day? : Option Nat
  now : Int

/-- A finite sequence of `saveAIDecisionToHistory` calls applied in
order to a store. -/
def applySaveCalls (s : AppStore) (calls : List SaveCall) : AppStore :=
  calls.foldl (fun st c => saveAIDecisionToHistory st c.aiName c.decision c.day? c.now) s

/-- A concrete decision payload used in witnesses. -/
def demoDecision1 : DecisionInput :=
  { thinking := some "probe resources", resourceRequest := some 30 }

/-- A second concrete decision payload used in witnesses. -/
def demoDecision2 : DecisionInput :=
  { thinking := some "vote against"
    actions := some [{ type := "vote", vote := some "oppose" }]
    resourceRequest := some 45
    actionPoints := some 2 }

/-- Ten concrete history records for days 1..10, a full per-agent
list used in witnesses. -/
def tenDayRecords : List HistoryRecord :=
  (List.range 10).map (fun i =>
    { day := i + 1
      thinking := ""
      actions := []
      resourceRequest := 0
      actionPoints := 0
      timestamp := Int.ofNat i })

/-- A store whose list for agent `Alpha` is full (10 records). -/
def fullHistoryStore : AppStore :=
  { initialAppStore with
    aiDecisionHistory := fun n => if n = "Alpha" then tenDayRecords else [] }

/-- A convenient store with a non-default live state, used as a
concrete pre-tick state in counterexamples. -/
def runningDay5Store : AppStore :=
  { initialAppStore with
    liveState :=
      { day := 5
        running := true
        current_acting_ai := some "Alpha"
        current_ai_states :=
          [{ aiName := "Alpha"
             health := 90
             actionPoints := 3
             decision := "keep"
             currentAction := "vote"
             resourceRequest := 40
             lastAllocated := 10
             phase := "acting"
             isActing := true
             actions := some []
             timestamp := 77 }]
        system_phase := "running"
        last_update := 1234 } }

/-- An ES `Map` keyed by strings, modelled as an insertion-ordered
association list: `set` updates an existing key in place (keeping
its position) or appends a new entry at the end. -/
def mapSet {α : Type} (m : List (String × α)) (k : String) (v : α) : List (String × α) :=
  if m.any (fun p => decide (p.1 = k)) then
    m.map (fun p => if p.1 = k then (k, v) else p)
  else
    m ++ [(k, v)]

/-- Insert every element of `l` under its key, in list order — the
`forEach`/`set` loops of the merged read views. -/
def mapSetAll {α : Type} (key : α → String) (m : List (String × α))
    (l : List α) : List (String × α) :=
  l.foldl (fun m v => mapSet m (key v) v) m

/-- `Array.from(map.values())`: the values in insertion order. -/
def mapValues {α : Type} (m : List (String × α)) : List α := m.map Prod.snd

/-- `map.get(k)`: the value stored under `k`, if any. -/
def mapGet {α : Type} (m : List (String × α)) (k : String) : Option α :=
  (m.find? (fun p => decide (p.1 = k))).map Prod.snd

/-- `getAllProposals` (`appStore.ts` lines 638-675): fill a unique-id
map with every history bucket's proposals, overwrite with the
current in-flight proposals, then sort the values descending by
`createdAt` (the comparator `b.createdAt - a.createdAt`, a stable
sort). -/
def getAllProposals (s : AppStore) : List Proposal :=
  let proposalMap := (s.history.map Prod.snd).foldl
    (fun m dayData => mapSetAll Proposal.id m dayData.proposals) []
  let proposalMap := mapSetAll Proposal.id proposalMap s.proposals
  let allProposals := mapValues proposalMap
  allProposals.mergeSort (fun a b => decide (b.createdAt ≤ a.createdAt))

/-- `getAllEvents` (`appStore.ts` lines 678-715): same merge with the
buckets' events and the current events, sorted descending by
`timestamp`. -/
def getAllEvents (s : AppStore) : List GameEvent :=
  let eventMap := (s.history.map Prod.snd).foldl
    (fun m dayData => mapSetAll GameEvent.id m dayData.events) []
  let eventMap := mapSetAll GameEvent.id eventMap s.events
  let allEvents := mapValues eventMap
  allEvents.mergeSort (fun a b => decide (b.timestamp ≤ a.timestamp))

/-- `getAllVoteAnalyses` (`appStore.ts` lines 718-752): the same
merge keyed by proposal id, returned unsorted in map insertion
order. -/
def getAllVoteAnalyses (s : AppStore) : List VoteAnalysis :=
  let voteAnalysisMap := (s.history.map Prod.snd).foldl
    (fun m dayData => mapSetAll VoteAnalysis.proposalId m dayData.voteAnalyses) []
  let voteAnalysisMap := mapSetAll VoteAnalysis.proposalId voteAnalysisMap s.voteAnalyses
  mapValues voteAnalysisMap

/-- A historical proposal later superseded by a same-id current one,
used in witnesses. -/
def demoOldProposal : Proposal :=
  { id := "p1"
    proposer := "Alpha"
    type := "resource"
    content := "old text"
    status := "voting"
    supporters := []
    opposers := []
    voteHistory := []
    createdAt := 100 }

/-- The current in-flight version of the same proposal. -/
def demoNewProposal : Proposal :=
  { demoOldProposal with content := "new text", status := "approved" }

/-- A second, unrelated current proposal. -/
def demoProposal2 : Proposal :=
  { id := "p2"
    proposer := "Beta"
    type := "rule"
    content := "second"
    status := "pending"
    supporters := []
    opposers := []
    voteHistory := []
    createdAt := 250 }

/-- A historical event later superseded by a same-id current one. -/
def demoOldEvent : GameEvent :=
  { id := "e1", type := "action", timestamp := 10, description := "old", actors := ["Alpha"] }

/-- The current in-flight version of the same event. -/
def demoNewEvent : GameEvent :=
  { demoOldEvent with description := "new" }

/-- A second, unrelated current event. -/
def demoEvent2 : GameEvent :=
  { id := "e2", type := "vote", timestamp := 30, description := "later", actors := ["Beta"] }

/-- A store with one day-1 history bucket and current collections
that share one id with the bucket. -/
def mergedViewsStore : AppStore :=
  { initialAppStore with
    history := [(1, { proposals := [demoOldProposal], events := [demoOldEvent], voteAnalyses := [] })]
    proposals := [demoNewProposal, demoProposal2]
    events := [demoNewEvent, demoEvent2] }

/-- JS `Math.round` on a non-negative rational: half-up rounding,
the floor of `q + 1/2`. -/
def jsMathRound (q : ℚ) : ℤ := ⌊q + 1/2⌋

/-- The raw `data` payload of `GET status`, with possibly-missing
fields; the efficiency arrives as a 0-1 fraction. -/
structure StatusData where
  day : Option Nat := none
  remainingResources : Option Int := none
  totalResources : Option Int := none
  systemEfficiency : Option ℚ := none
  eliminationCount : Option Int := none
  allocationMethod : Option String := none
  tokenBudget : Option Int := none
  totalTokenConsumed : Option Int := none

/-- The fallback system state of `getSystemStatus`
(`services/api.ts` lines 99-119): efficiency defaults to 100. -/
def defaultSystemState : SystemState :=
  { day := 0
    remainingResources := 0
    totalResources := 0
    systemEfficiency := 100
    eliminationCount := 0
    allocationMethod := ""
    tokenBudget := 0
    totalTokenConsumed := 0 }

/-- `shelterAPI.getSystemStatus` (`services/api.ts` lines 79-122):
missing numeric fields default to 0, and the efficiency fraction is
converted by `data.systemEfficiency ? Math.round(e * 100) : 100` —
a JS truthiness test, so a present-but-zero fraction takes the
`: 100` branch. -/
def getSystemStatus (response : Option StatusData) : SystemState :=
  safeApiCall
    (response.map (fun data =>
      { day := data.day.getD 0
        remainingResources := data.remainingResources.getD 0
        totalResources := data.totalResources.getD 0
        systemEfficiency :=
          match data.systemEfficiency with
          | some e => if e ≠ 0 then jsMathRound (e * 100) else 100
          | none => 100
        eliminationCount := data.eliminationCount.getD 0
        allocationMethod := data.allocationMethod.getD ""
        tokenBudget := data.tokenBudget.getD 0
        totalTokenConsumed := data.totalTokenConsumed.getD 0 }))
    defaultSystemState

/-- One display step of the action stream (`ActionStep` in
`AIActionInfoStream.tsx`). -/
structure ActionStep where
  type : String
  content : String
  timestamp : Int
  isCollapsed : Option Bool := none
  isImportant : Option Bool := none
deriving Repr, DecidableEq

/-- The `actionTypeInfo` label lookup, falling back to the
`do_nothing` entry for unknown action types. -/
def actionLabel (t : String) : String :=
  if t = "propose" then "提出提案"
  else if t = "vote" then "投票表决"
  else if t = "private_message" then "私聊沟通"
  else if t = "do_nothing" then "无行动"
  else if t = "think" then "分析思考"
  else "无行动"

/-- One per-action step of the thinking branch
(`AIActionInfoStream.tsx` lines 108-125). -/
def thinkingActionStep (now : Int) (action : AIAction) (index : Nat) : ActionStep :=
  let type := if action.type = "" then "do_nothing" else action.type
  let info := actionLabel type
  let actionReason :=
    if (action.reasoning.getD "") ≠ "" then "行动原因：" ++ action.reasoning.getD ""
    else "行动原因：执行" ++ info
  { type := type
    content := actionReason
    timestamp := now + (Int.ofNat index + 1) * 500
    isCollapsed := some false
    isImportant := some (decide (type ≠ "do_nothing")) }

/-- The content builder of the acting branch
(`AIActionInfoStream.tsx` lines 142-177). -/
def actingStepContent (action : AIAction) : String :=
  let type := if action.type = "" then "do_nothing" else action.type
  let info := actionLabel type
  if type = "do_nothing" then
    "无行动：" ++ (if (action.reasoning.getD "") ≠ "" then action.reasoning.getD "" else "无具体原因")
  else
    let content := info
    let content :=
      if (action.proposalId.getD "") ≠ "" then
        content ++ " - 提案 #" ++ action.proposalId.getD ""
      else if (action.vote.getD "") ≠ "" then
        let c := content ++ " - " ++ (if action.vote.getD "" = "support" then "支持" else "反对")
        if (action.target.getD "") ≠ "" then c ++ " - 目标提案: " ++ action.target.getD "" else c
      else if type = "private_message" ∧ (action.target.getD "") ≠ "" then
        let c := content ++ " - 对: " ++ action.target.getD ""
        let messageContent :=
          if (action.content.getD "") ≠ "" then action.content.getD "" else action.message.getD ""
        if messageContent ≠ "" then c ++ " | 消息: " ++ messageContent else c
      else if (action.target.getD "") ≠ "" then
        content ++ " - 目标: " ++ action.target.getD ""
      else content
    let content :=
      if (action.initiator.getD "") ≠ "" then content ++ " | 发起者: " ++ action.initiator.getD ""
      else content
    let content :=
      if (action.target.getD "") ≠ "" ∧ action.target ≠ action.initiator ∧ type ≠ "private_message" then
        content ++ " | 对: " ++ action.target.getD ""
      else content
    if (action.reasoning.getD "") ≠ "" then content ++ " | 理由: " ++ action.reasoning.getD ""
    else content

/-- The step-derivation effect (`AIActionInfoStream.tsx` lines
96-200) as a pure function of the displayed agent's status, its
decision data and the current time: the thinking branch emits one
think step plus per-action steps (or a synthetic `do_nothing`), the
acting branch emits per-action execution steps (or a synthetic
"no action available" step). -/
def deriveSteps (status : String) (decision : Option AIDecision) (now : Int) : List ActionStep :=
  let actions := (decision.map AIDecision.actions).getD []
  let thinkingSteps :=
    match decision with
    | some d =>
      if d.thinking ≠ "" ∧ status = "thinking" then
        ({ type := "think"
           content := "决策原因：" ++ d.thinking
           timestamp := now
           isImportant := some true } : ActionStep) ::
        (if actions.length > 0 then
          actions.enum.map (fun p => thinkingActionStep now p.2 p.1)
        else
          [{ type := "do_nothing"
             content := "行动原因：无行动"
             timestamp := now + 500
             isCollapsed := some false }])
      else []
    | none => []
  let actingSteps :=
    if status = "acting" ∧ actions.length > 0 then
      actions.enum.map (fun p =>
        { type := if p.2.type = "" then "do_nothing" else p.2.type
          content := actingStepContent p.2
          timestamp := now + (Int.ofNat p.1 + 1) * 1000
          isCollapsed := some false
          isImportant := some (decide ((if p.2.type = "" then "do_nothing" else p.2.type) ≠ "do_nothing")) })
    else []
  let actingEmptyStep :=
    if status = "acting" ∧ actions.length = 0 then
      [({ type := "do_nothing"
          content := "跳过行动：当前无可执行行动"
          timestamp := now
          isCollapsed := some false } : ActionStep)]
    else []
  thinkingSteps ++ actingSteps ++ actingEmptyStep

/-- The status derivation of `realtimeStatesFromBackend`
(`AIStatusPanel.tsx` lines 131-156): the backend phase takes
precedence over the running/isActing fallback. -/
def statusOfPhase (running : Bool) (phase : String) (isActing : Bool) : String :=
  if phase = "thinking" then "thinking"
  else if phase = "acting" ∨ phase = "executing" then "acting"
  else if running ∧ isActing then (if isActing then "acting" else "thinking")
  else "idle"

/-- A decision in the thinking phase with an empty reasoning text
and no planned actions. -/
def emptyThinkingDecision : AIDecision :=
  { name := "Alpha", resourceRequest := 0, actions := [], thinking := "", day := 1, actionPoints := 1 }

/-- A decision in the thinking phase with a non-empty reasoning text
and no planned actions. -/
def demoThinkingDecision : AIDecision :=
  { name := "Alpha"
    resourceRequest := 50
    actions := []
    thinking := "评估当前资源"
    day := 2
    actionPoints := 3 }

/-- One of the 8 resize anchor directions. -/
inductive ResizeDir
  | n | s | e | w | ne | nw | se | sw
deriving Repr, DecidableEq

/-- The overlay (tooltip) state (`TooltipState` in
`AIActionInfoStream.tsx`), with screen geometry in pixels. -/
structure TooltipState where
  isVisible : Bool
  content : String
  x : Int
  y : Int
  type : String
  stepIndex : Nat
  isDragging : Bool := false
  dragOffset : Option (Int × Int) := none
  width : Int
  height : Int
  isResizing : Bool := false
  resizeDirection : Option ResizeDir := none
  resizeStartSize : Option (Int × Int) := none
  resizeStartPos : Option (Int × Int) := none
deriving Repr, DecidableEq

/-- `handleDragMove` (`AIActionInfoStream.tsx` lines 325-340): the
overlay follows the pointer minus the grab offset, clamped to
`[margin, viewportExtent - size - margin]` on both axes. -/
def handleDragMove (t : TooltipState) (vw vh clientX clientY : Int) : TooltipState :=
  if ¬ t.isDragging then t
  else
    let newX := clientX - (t.dragOffset.map Prod.fst).getD 0
    let newY := clientY - (t.dragOffset.map Prod.snd).getD 0
    let margin : Int := 10
    let clampedX := max margin (min newX (vw - t.width - margin))
    let clampedY := max margin (min newY (vh - t.height - margin))
    { t with x := clampedX, y := clampedY }

/-- `handleResizeMove` (`AIActionInfoStream.tsx` lines 362-446): the
direction-dependent size/origin update, the viewport boundary
corrections, then the final minimum clamps. -/
def handleResizeMove (t : TooltipState) (vw vh clientX clientY : Int) : TooltipState :=
  match t.isResizing, t.resizeStartSize, t.resizeStartPos with
  | true, some startSize, some startPos =>
    let deltaX := clientX - startPos.1
    let deltaY := clientY - startPos.2
    let minWidth : Int := 200
    let minHeight : Int := 150
    let maxWidth : Int := 800
    let maxHeight : Int := 600
    let margin : Int := 10
    let dims : Int × Int × Int × Int :=
      match t.resizeDirection with
      | some ResizeDir.e =>
        (max minWidth (min maxWidth (startSize.1 + deltaX)), startSize.2, t.x, t.y)
      | some ResizeDir.s =>
        (startSize.1, max minHeight (min maxHeight (startSize.2 + deltaY)), t.x, t.y)
      | some ResizeDir.se =>
        (max minWidth (min maxWidth (startSize.1 + deltaX)),
         max minHeight (min maxHeight (startSize.2 + deltaY)), t.x, t.y)
      | some ResizeDir.sw =>
        (max minWidth (min maxWidth (startSize.1 - deltaX)),
         max minHeight (min maxHeight (startSize.2 + deltaY)), t.x + deltaX, t.y)
      | some ResizeDir.ne =>
        (max minWidth (min maxWidth (startSize.1 + deltaX)),
         max minHeight (min maxHeight (startSize.2 - deltaY)), t.x, t.y + deltaY)
      | some ResizeDir.nw =>
        (max minWidth (min maxWidth (startSize.1 - deltaX)),
         max minHeight (min maxHeight (startSize.2 - deltaY)), t.x + deltaX, t.y + deltaY)
      | some ResizeDir.w =>
        (max minWidth (min maxWidth (startSize.1 - deltaX)), startSize.2, t.x + deltaX, t.y)
      | some ResizeDir.n =>
        (startSize.1, max minHeight (min maxHeight (startSize.2 - deltaY)), t.x, t.y + deltaY)
      | none => (startSize.1, startSize.2, t.x, t.y)
    let newWidth := dims.1
    let newHeight := dims.2.1
    let newX := dims.2.2.1
    let newY := dims.2.2.2
    let widthX :=
      if newX < margin then (newWidth - (margin - newX), margin) else (newWidth, newX)
    let newWidth := widthX.1
    let newX := widthX.2
    let newWidth :=
      if newX + newWidth > vw - margin then max minWidth (vw - margin - newX) else newWidth
    let heightY :=
      if newY < margin then (newHeight - (margin - newY), margin) else (newHeight, newY)
    let newHeight := heightY.1
    let newY := heightY.2
    let newHeight :=
      if newY + newHeight > vh - margin then max minHeight (vh - margin - newY) else newHeight
    { t with
      width := max minWidth newWidth
      height := max minHeight newHeight
      x := newX
      y := newY }
  | _, _, _ => t

/-- A concrete open overlay, fully inside a 1024x768 viewport, with
an active west-handle resize whose pointer started at (510, 210). -/
def westResizeTooltip : TooltipState :=
  { isVisible := true
    content := "detail"
    x := 500
    y := 100
    type := "think"
    stepIndex := 0
    width := 300
    height := 200
    isResizing := true
    resizeDirection := some ResizeDir.w
    resizeStartSize := some (300, 200)
    resizeStartPos := some (510, 210) }

/-- The outside-mousedown handler (`handleClickOutside`,
`AIActionInfoStream.tsx` lines 483-488): the overlay closes only
when the press lands outside it and no drag or resize is active. -/
def handleClickOutside (tooltip : Option TooltipState) (targetInsideTooltip : Bool) :
    Option TooltipState :=
  match tooltip with
  | some t =>
    if ¬ targetInsideTooltip ∧ ¬ t.isDragging ∧ ¬ t.isResizing then none else some t
  | none => none

/-- The Escape-key handler (`handleEscKey`, `AIActionInfoStream.tsx`
lines 496-500): closes the overlay unconditionally. -/
def handleEscKey (tooltip : Option TooltipState) (key : String) : Option TooltipState :=
  if key = "Escape" then none else tooltip

/-- A concrete open overlay in the middle of a drag. -/
def draggingTooltip : TooltipState :=
  { isVisible := true
    content := "detail"
    x := 300
    y := 200
    type := "vote"
    stepIndex := 1
    isDragging := true
    dragOffset := some (5, 5)
    width := 350
    height := 200 }

/-- The persisted record produced by the `partialize` projection
(`appStore.ts` lines 770-783): every persisted field, and nothing
else — in particular no `history`, `liveState`, `loading` or
`error`. -/
structure PersistedState where
  aiList : List AIState
  systemState : SystemState
  proposals : List Proposal
  events : List GameEvent
  chatMessages : List ChatMessage
  resourceAllocations : List ResourceAllocation
  voteAnalyses : List VoteAnalysis
  behaviorStats : List AIBehaviorStats
  socialNetwork : SocialNetwork
  controlState : ControlState
  lastRunningState : Bool
  aiDecisionHistory : String → List HistoryRecord

/-- The `partialize` projection itself. -/
def partialize (s : AppStore) : PersistedState :=
  { aiList := s.aiList
    systemState := s.systemState
    proposals := s.proposals
    events := s.events
    chatMessages := s.chatMessages
    resourceAllocations := s.resourceAllocations
    voteAnalyses := s.voteAnalyses
    behaviorStats := s.behaviorStats
    socialNetwork := s.socialNetwork
    controlState := s.controlState
    lastRunningState := s.lastRunningState
    aiDecisionHistory := s.aiDecisionHistory }

/-- Rehydration on reload: the zustand `persist` middleware spreads
the stored record over the initial state, so every field absent from
the persisted record — in particular the day-keyed `history` bucket
map — keeps its initial value. -/
def rehydrate (p : PersistedState) : AppStore :=
  { initialAppStore with
    aiList := p.aiList
    systemState := p.systemState
    proposals := p.proposals
    events := p.events
    chatMessages := p.chatMessages
    resourceAllocations := p.resourceAllocations
    voteAnalyses := p.voteAnalyses
    behaviorStats := p.behaviorStats
    socialNetwork := p.socialNetwork
    controlState := p.controlState
    lastRunningState := p.lastRunningState
    aiDecisionHistory := p.aiDecisionHistory }

/-- The calibrated resource request for one live per-agent entry
(`AIStatusPanel.tsx` lines 222-227): a zero live value is replaced
by the cached decision's non-zero value when one exists — the live
zero is treated as "not yet populated". -/
def calibratedResourceRequest (aiState : AIRealTimeDecision)
    (aiDecisions : String → Option AIDecision) : Int :=
  let resourceRequest := aiState.resourceRequest
  if resourceRequest = 0 then
    match aiDecisions aiState.aiName with
    | some d => if d.resourceRequest ≠ 0 then d.resourceRequest else resourceRequest
    | none => resourceRequest
  else resourceRequest

/-- The payload handed to `saveAIDecisionToHistory` for one live
per-agent entry during settlement (`AIStatusPanel.tsx` lines
230-235). -/
def settlementDecisionInput (aiState : AIRealTimeDecision)
    (aiDecisions : String → Option AIDecision) : DecisionInput :=
  { thinking := some aiState.decision
    actions := some (aiState.actions.getD [])
    resourceRequest := some (calibratedResourceRequest aiState aiDecisions)
    actionPoints := some aiState.actionPoints }

/-- The settlement target day (`AIStatusPanel.tsx` line 220):
`Math.max(1, liveState.day || 1)`. -/
def settlementHistoryDay (liveDay : Nat) : Nat :=
  max 1 (if liveDay = 0 then 1 else liveDay)

/-- The `saveAIDecisionToHistory` calls the settlement effect issues:
one per entry of `current_ai_states`, in list order, all targeting
the settlement day (`AIStatusPanel.tsx` lines 220-236). -/
def settlementCalls (live : LiveStateResponse) (aiDecisions : String → Option AIDecision)
    (now : Int) : List SaveCall :=
  live.current_ai_states.map (fun aiState =>
    { aiName := aiState.aiName
      decision := settlementDecisionInput aiState aiDecisions
      day? := some (settlementHistoryDay live.day)
      now := now })

/-- The settlement branch of the status-panel effect
(`AIStatusPanel.tsx` lines 190-248) restricted to its store writes:
when the system is not running, the previously observed running flag
was true and the live per-agent list is non-empty, every entry is
saved to the per-agent decision history. -/
def runSettlementEffect (s : AppStore) (aiDecisions : String → Option AIDecision)
    (now : Int) : AppStore :=
  if s.liveState.running then s
  else if s.lastRunningState ∧ s.liveState.current_ai_states ≠ [] then
    applySaveCalls s (settlementCalls s.liveState aiDecisions now)
  else s

/-- A concrete live per-agent entry used in witnesses. -/
def alphaLiveEntry : AIRealTimeDecision :=
  { aiName := "Alpha"
    health := 80
    actionPoints := 2
    decision := "hold position"
    currentAction := "idle"
    resourceRequest := 25
    lastAllocated := 20
    phase := "idle"
    isActing := false
    actions := some [{ type := "do_nothing" }]
    timestamp := 55 }

/-- A store observed right after a running→settled transition on day
6: the previous tick was running, the new live state is not. -/
def settledDay6Store : AppStore :=
  { initialAppStore with
    lastRunningState := true
    liveState :=
      { day := 6
        running := false
        current_ai_states := [alphaLiveEntry]
        system_phase := "idle"
        last_update := 0 } }

/-- `findIndexDay` misses exactly when no record has the given day. -/
theorem findIndexDay_eq_none_iff (l : List HistoryRecord) (D : Nat) :
    findIndexDay l D = none ↔ ∀ h ∈ l, ¬ h.day = D := by
  induction l with
  | nil => simp [findIndexDay]
  | cons a l ih =>
    by_cases ha : a.day = D
    · simp [findIndexDay, ha]
    · simp [findIndexDay, ha, ih]

/-- The upserted record is always a member of the upsert result. -/
theorem mem_upsertByDay (l : List HistoryRecord) (r : HistoryRecord) (D : Nat) :
    r ∈ upsertByDay l r D := by
  induction l with
  | nil => simp [upsertByDay, findIndexDay]
  | cons a l ih =>
    by_cases ha : a.day = D
    · simp [upsertByDay, findIndexDay, ha]
    · cases hfl : findIndexDay l D with
      | none => simp [upsertByDay, findIndexDay, ha, hfl]
      | some j =>
        have hrw : upsertByDay l r D = l.set j r := by
          unfold upsertByDay
          rw [hfl]
        simp only [upsertByDay, findIndexDay, if_neg ha, hfl, Option.map_some,
          List.set_cons_succ]
        exact List.mem_cons_of_mem a (hrw ▸ ih)

/-- If the agent's list holds at most one record for day `D`, the
upsert leaves exactly one record for `D`: the new one. -/
theorem upsertByDay_filter (l : List HistoryRecord) (r : HistoryRecord) (D : Nat)
    (hr : r.day = D) (hcnt : l.countP (fun h => decide (h.day = D)) ≤ 1) :
    (upsertByDay l r D).filter (fun h => decide (h.day = D)) = [r] := by
  induction l with
  | nil => simp [upsertByDay, findIndexDay, List.filter, hr]
  | cons a l ih =>
    by_cases ha : a.day = D
    · have hcons := List.countP_cons_of_pos (fun h => decide (h.day = D)) l
        (a := a) (by simpa using ha)
      rw [hcons] at hcnt
      have hzero : l.countP (fun h => decide (h.day = D)) = 0 := by omega
      have hnil : l.filter (fun h => decide (h.day = D)) = [] := by
        rw [List.filter_eq_nil_iff]
        intro x hx
        simpa using List.countP_eq_zero.mp hzero x hx
      have hu : upsertByDay (a :: l) r D = r :: l := by
        unfold upsertByDay findIndexDay
        simp [ha]
      rw [hu]
      simp [List.filter, hr, hnil]
    · have hcons := List.countP_cons_of_neg (fun h => decide (h.day = D)) l
        (a := a) (by simpa using ha)
      rw [hcons] at hcnt
      cases hfl : findIndexDay l D with
      | none =>
        have hall := (findIndexDay_eq_none_iff l D).mp hfl
        have hnil : l.filter (fun h => decide (h.day = D)) = [] := by
          rw [List.filter_eq_nil_iff]
          intro x hx
          simpa using hall x hx
        have hu : upsertByDay (a :: l) r D = r :: a :: l := by
          unfold upsertByDay findIndexDay
          simp [ha, hfl]
        rw [hu]
        simp [List.filter, hr, ha, hnil]
      | some j =>
        have hrw : upsertByDay l r D = l.set j r := by
          unfold upsertByDay
          rw [hfl]
        have hu : upsertByDay (a :: l) r D = a :: l.set j r := by
          unfold upsertByDay findIndexDay
          simp [ha, hfl, List.set_cons_succ]
        rw [hu]
        have hfa : (fun h => decide (h.day = D)) a = false := by simpa using ha
        simp only [List.filter, hfa]
        rw [← hrw]
        exact ih hcnt

/-- C1, counterexample: a tick whose fetch fails (`none`) does NOT
leave the previous `LiveState` untouched — `safeApiCall` swallows the
error and returns the default live state, which the tick then
stores: starting from a live state with `day = 5` and
`running = true`, the failed tick overwrites it with `day = 0`,
`running = false` and an empty per-agent list. -/
theorem pollLiveState_failed_tick_overwrites :
    (pollLiveState runningDay5Store none).liveState ≠ runningDay5Store.liveState ∧
    (pollLiveState runningDay5Store none).liveState.day = 0 ∧
    (pollLiveState runningDay5Store none).liveState.running = false ∧
    (pollLiveState runningDay5Store none).liveState.current_ai_states = [] := by
  refine ⟨?_, rfl, rfl, rfl⟩
  intro h
  have hd := congrArg LiveStateResponse.day h
  simp [pollLiveState, shelterGetLiveState, safeApiCall, defaultLiveState,
    runningDay5Store, initialAppStore] at hd

/-- C1, amended: on a failed fetch the snapshot client logs a warning
and returns the default live state, and the polling tick stores that
default — `liveState` becomes `defaultLiveState` (day 0, not
running, empty per-agent list) while `lastRunningState` records the
previous `running` flag; all other store fields are unchanged. -/
theorem pollLiveState_failed_tick_stores_default (s : AppStore) :
    pollLiveState s none =
      { s with lastRunningState := s.liveState.running, liveState := defaultLiveState } := by
  rfl

/-- The cap step always leaves at most 10 records. -/
theorem truncate10_length (l : List HistoryRecord) : (truncate10 l).length ≤ 10 := by
  unfold truncate10
  by_cases h : l.length > 10
  · simp only [if_pos h, List.length_take]
    omega
  · simp only [if_neg h]
    omega

/-- The cap step is the identity on lists of at most 10 records. -/
theorem truncate10_of_le {l : List HistoryRecord} (h : l.length ≤ 10) : truncate10 l = l := by
  unfold truncate10
  rw [if_neg (by omega)]

/-- After one `saveAIDecisionToHistory` call with an explicit day
`D ≠ 0`, on a list that held at most 10 records with at most one of
them for day `D`, the agent's list holds exactly one record for day
`D`: the freshly built one. -/
theorem saveAIDecision_history_filter (s : AppStore) (A : String) (D : Nat)
    (d : DecisionInput) (t : Int) (hD : D ≠ 0)
    (hlen : (s.aiDecisionHistory A).length ≤ 10)
    (hcnt : (s.aiDecisionHistory A).countP (fun h => decide (h.day = D)) ≤ 1) :
    ((saveAIDecisionToHistory s A d (some D) t).aiDecisionHistory A).filter
        (fun h => decide (h.day = D)) = [mkHistoryRecord D d t] := by
  unfold saveAIDecisionToHistory
  simp only [Option.getD_some, if_neg hD, if_pos rfl]
  set l := s.aiDecisionHistory A with hl
  set r := mkHistoryRecord D d t with hrdef
  have hr : r.day = D := rfl
  cases hfl : findIndexDay l D with
  | some j =>
    have hu : upsertByDay l r D = l.set j r := by
      unfold upsertByDay
      rw [hfl]
    have hlen2 : (upsertByDay l r D).length ≤ 10 := by
      rw [hu, List.length_set]
      exact hlen
    rw [truncate10_of_le hlen2]
    exact upsertByDay_filter l r D hr hcnt
  | none =>
    have hall := (findIndexDay_eq_none_iff l D).mp hfl
    have hu : upsertByDay l r D = r :: l := by
      unfold upsertByDay
      rw [hfl]
    rw [hu]
    unfold truncate10
    by_cases hgt : (r :: l).length > 10
    · rw [if_pos hgt]
      rw [show (10 : Nat) = 9 + 1 from rfl, List.take_succ_cons]
      have hnil : (l.take 9).filter (fun h => decide (h.day = D)) = [] := by
        rw [List.filter_eq_nil_iff]
        intro x hx
        simpa using hall x (List.mem_of_mem_take hx)
      simp [List.filter_cons, hr, hnil]
    · rw [if_neg hgt]
      have hnil : l.filter (fun h => decide (h.day = D)) = [] := by
        rw [List.filter_eq_nil_iff]
        intro x hx
        simpa using hall x hx
      simp [List.filter_cons, hr, hnil]

/-- A `saveAIDecisionToHistory` call with a day not yet present in
the agent's list prepends the new record (then caps at 10). -/
theorem saveAIDecision_history_of_new_day (s : AppStore) (A : String) (D : Nat)
    (d : DecisionInput) (t : Int) (hD : D ≠ 0)
    (hnot : D ∉ (s.aiDecisionHistory A).map HistoryRecord.day) :
    (saveAIDecisionToHistory s A d (some D) t).aiDecisionHistory A
      = truncate10 (mkHistoryRecord D d t :: s.aiDecisionHistory A) := by
  have hfl : findIndexDay (s.aiDecisionHistory A) D = none := by
    rw [findIndexDay_eq_none_iff]
    intro h hmem hday
    exact hnot (hday ▸ List.mem_map_of_mem HistoryRecord.day hmem)
  unfold saveAIDecisionToHistory
  simp only [Option.getD_some, if_neg hD, if_pos rfl]
  unfold upsertByDay
  rw [hfl]
  simp

/-- One `saveAIDecisionToHistory` call keeps every agent's list at 10
records or fewer, provided the inspected agent's list already was. -/
theorem saveAIDecision_length_le (s : AppStore) (A : String) (d : DecisionInput)
    (day? : Option Nat) (t : Int) (n : String)
    (h : (s.aiDecisionHistory n).length ≤ 10) :
    ((saveAIDecisionToHistory s A d day? t).aiDecisionHistory n).length ≤ 10 := by
  unfold saveAIDecisionToHistory
  by_cases h0 : day?.getD s.systemState.day = 0
  · rw [if_pos h0]
    exact h
  · rw [if_neg h0]
    by_cases hn : n = A
    · simp only [hn, if_pos rfl]
      exact truncate10_length _
    · simp only [if_neg hn]
      exact h

/-- C3: for any agent `A` and day `D ≥ 1`, on a store whose list for
`A` satisfies the maintained invariants (at most 10 records, at most
one record for day `D`), calling `saveAIDecisionToHistory` twice
with day `D` leaves exactly one record for day `D` in `A`'s list and
it carries the fields of the second call; and a call whose day is
not yet present prepends the new record at the head of the list
(subject only to the 10-record cap). -/
theorem saveAIDecision_upsert_semantics (s : AppStore) (A : String) (D : Nat)
    (d1 d2 : DecisionInput) (t1 t2 : Int) (hD : 1 ≤ D)
    (hlen : (s.aiDecisionHistory A).length ≤ 10)
    (hcnt : (s.aiDecisionHistory A).countP (fun h => decide (h.day = D)) ≤ 1) :
    (((saveAIDecisionToHistory (saveAIDecisionToHistory s A d1 (some D) t1)
          A d2 (some D) t2).aiDecisionHistory A).filter
        (fun h => decide (h.day = D)) = [mkHistoryRecord D d2 t2]) ∧
    (D ∉ (s.aiDecisionHistory A).map HistoryRecord.day →
      (saveAIDecisionToHistory s A d1 (some D) t1).aiDecisionHistory A
        = truncate10 (mkHistoryRecord D d1 t1 :: s.aiDecisionHistory A)) := by
  have hD0 : D ≠ 0 := by omega
  constructor
  · have h1 := saveAIDecision_history_filter s A D d1 t1 hD0 hlen hcnt
    have hlen1 : ((saveAIDecisionToHistory s A d1 (some D) t1).aiDecisionHistory A).length ≤ 10 :=
      saveAIDecision_length_le s A d1 (some D) t1 A hlen
    have hcnt1 : ((saveAIDecisionToHistory s A d1 (some D) t1).aiDecisionHistory A).countP
        (fun h => decide (h.day = D)) ≤ 1 := by
      rw [List.countP_eq_length_filter, h1]
      simp
    exact saveAIDecision_history_filter _ A D d2 t2 hD0 hlen1 hcnt1
  · intro hnot
    exact saveAIDecision_history_of_new_day s A D d1 t1 hD0 hnot

/-- C3 witness: two concrete day-3 upserts for agent `Alpha` on the
initial store leave exactly the second record, and the first call
prepends. -/
theorem saveAIDecision_upsert_semantics_witness :
    (((saveAIDecisionToHistory (saveAIDecisionToHistory initialAppStore "Alpha" demoDecision1 (some 3) 5)
          "Alpha" demoDecision2 (some 3) 9).aiDecisionHistory "Alpha").filter
        (fun h => decide (h.day = 3)) = [mkHistoryRecord 3 demoDecision2 9]) ∧
    ((saveAIDecisionToHistory initialAppStore "Alpha" demoDecision1 (some 3) 5).aiDecisionHistory "Alpha"
        = truncate10 (mkHistoryRecord 3 demoDecision1 5 :: initialAppStore.aiDecisionHistory "Alpha")) := by
  have h := saveAIDecision_upsert_semantics initialAppStore "Alpha" 3 demoDecision1 demoDecision2
    5 9 (by decide) (by decide) (by decide)
  exact ⟨h.1, h.2 (by decide)⟩

/-- C4: every agent's decision-history list stays at 10 records or
fewer after any finite sequence of `saveAIDecisionToHistory` calls
starting from a store satisfying the cap (in particular from the
initial store); and when an insert of a not-yet-present day hits a
full list of 10, the result is the new record followed by the first
9 old records — the record at the tail list position is evicted,
irrespective of its day value. -/
theorem aiDecisionHistory_cap_and_tail_eviction :
    (∀ (s : AppStore), (∀ n, (s.aiDecisionHistory n).length ≤ 10) →
      ∀ (calls : List SaveCall) (n : String),
        ((applySaveCalls s calls).aiDecisionHistory n).length ≤ 10) ∧
    (∀ (s : AppStore) (A : String) (D : Nat) (d : DecisionInput) (t : Int),
      D ≠ 0 → (s.aiDecisionHistory A).length = 10 →
      D ∉ (s.aiDecisionHistory A).map HistoryRecord.day →
      (saveAIDecisionToHistory s A d (some D) t).aiDecisionHistory A
        = mkHistoryRecord D d t :: (s.aiDecisionHistory A).take 9) := by
  constructor
  · intro s hs calls
    induction calls generalizing s with
    | nil => exact hs
    | cons c cs ih =>
      have hstep : applySaveCalls s (c :: cs)
          = applySaveCalls (saveAIDecisionToHistory s c.aiName c.decision c.day? c.now) cs := rfl
      rw [hstep]
      exact ih _ (fun m => saveAIDecision_length_le s c.aiName c.decision c.day? c.now m (hs m))
  · intro s A D d t hD hfull hnot
    rw [saveAIDecision_history_of_new_day s A D d t hD hnot]
    unfold truncate10
    rw [if_pos (by simp [hfull]), show (10 : Nat) = 9 + 1 from rfl, List.take_succ_cons]

/-- C4 witness: a concrete call sequence on the initial store keeps
`Alpha`'s list within 10 records, and a day-11 insert on a full
10-record list evicts the tail record. -/
theorem aiDecisionHistory_cap_and_tail_eviction_witness :
    ((applySaveCalls initialAppStore
        [⟨"Alpha", demoDecision1, some 3, 5⟩, ⟨"Alpha", demoDecision2, some 4, 6⟩]).aiDecisionHistory
        "Alpha").length ≤ 10 ∧
    (saveAIDecisionToHistory fullHistoryStore "Alpha" demoDecision2 (some 11) 99).aiDecisionHistory "Alpha"
      = mkHistoryRecord 11 demoDecision2 99 :: (fullHistoryStore.aiDecisionHistory "Alpha").take 9 := by
  refine ⟨aiDecisionHistory_cap_and_tail_eviction.1 initialAppStore (fun n => by simp [initialAppStore]) _ "Alpha",
    aiDecisionHistory_cap_and_tail_eviction.2 fullHistoryStore "Alpha" 11 demoDecision2 99
      (by decide) (by decide) (by decide)⟩

/-- `settlementHistoryDay` computes `max 1 day`. -/
theorem settlementHistoryDay_eq_max (liveDay : Nat) :
    settlementHistoryDay liveDay = max 1 liveDay := by
  unfold settlementHistoryDay
  by_cases h : liveDay = 0
  · simp [h]
  · rw [if_neg h]

/-- A `saveAIDecisionToHistory` call leaves other agents' lists
untouched. -/
theorem saveAIDecision_other (s : AppStore) (A : String) (d : DecisionInput)
    (day? : Option Nat) (t : Int) (n : String) (hn : n ≠ A) :
    (saveAIDecisionToHistory s A d day? t).aiDecisionHistory n = s.aiDecisionHistory n := by
  unfold saveAIDecisionToHistory
  by_cases h0 : day?.getD s.systemState.day = 0
  · rw [if_pos h0]
  · rw [if_neg h0]
    simp only [if_neg hn]

/-- The upserted record survives the 10-record cap whenever the
original list was within the cap. -/
theorem mem_truncate10_upsertByDay (l : List HistoryRecord) (r : HistoryRecord) (D : Nat)
    (hlen : l.length ≤ 10) : r ∈ truncate10 (upsertByDay l r D) := by
  cases hfl : findIndexDay l D with
  | some j =>
    have hu : upsertByDay l r D = l.set j r := by
      unfold upsertByDay
      rw [hfl]
    have hlen2 : (upsertByDay l r D).length ≤ 10 := by
      rw [hu, List.length_set]
      exact hlen
    rw [truncate10_of_le hlen2]
    exact mem_upsertByDay l r D
  | none =>
    have hu : upsertByDay l r D = r :: l := by
      unfold upsertByDay
      rw [hfl]
    rw [hu]
    unfold truncate10
    by_cases hgt : (r :: l).length > 10
    · rw [if_pos hgt, show (10 : Nat) = 9 + 1 from rfl, List.take_succ_cons]
      exact List.mem_cons_self r _
    · rw [if_neg hgt]
      exact List.mem_cons_self r _

/-- After a save with explicit day `D ≠ 0` on a list within the cap,
the agent's list holds a record for day `D`. -/
theorem saveAIDecision_mem_day (s : AppStore) (A : String) (d : DecisionInput) (t : Int)
    (D : Nat) (hD : D ≠ 0) (hlen : (s.aiDecisionHistory A).length ≤ 10) :
    ∃ r ∈ (saveAIDecisionToHistory s A d (some D) t).aiDecisionHistory A, r.day = D := by
  refine ⟨mkHistoryRecord D d t, ?_, rfl⟩
  unfold saveAIDecisionToHistory
  simp only [Option.getD_some, if_neg hD, if_pos rfl]
  exact mem_truncate10_upsertByDay _ _ _ hlen

/-- Applying a sequence of save calls that all target the same day
`D ≠ 0` preserves, for any agent, the presence of a day-`D` record,
provided every list is within the cap. -/
theorem applySaveCalls_day_persist (D : Nat) (hD : D ≠ 0) (calls : List SaveCall)
    (hall : ∀ c ∈ calls, c.day? = some D) :
    ∀ (s : AppStore), (∀ n, (s.aiDecisionHistory n).length ≤ 10) →
      ∀ n, (∃ r ∈ s.aiDecisionHistory n, r.day = D) →
        ∃ r ∈ (applySaveCalls s calls).aiDecisionHistory n, r.day = D := by
  induction calls with
  | nil => exact fun s _ n h => h
  | cons c cs ih =>
    intro s hlen n hex
    have hday : c.day? = some D := hall c (List.mem_cons_self c cs)
    have hstep : applySaveCalls s (c :: cs)
        = applySaveCalls (saveAIDecisionToHistory s c.aiName c.decision c.day? c.now) cs := rfl
    rw [hstep]
    refine ih (fun c2 hc2 => hall c2 (List.mem_cons_of_mem c hc2)) _
      (fun m => saveAIDecision_length_le s c.aiName c.decision c.day? c.now m (hlen m)) n ?_
    by_cases hn : n = c.aiName
    · rw [hday, hn]
      exact saveAIDecision_mem_day s c.aiName c.decision c.now D hD (hlen c.aiName)
    · rw [saveAIDecision_other s c.aiName c.decision c.day? c.now n hn]
      exact hex

/-- After applying save calls that all target day `D ≠ 0`, every
called agent's list holds a day-`D` record. -/
theorem applySaveCalls_mem_day (D : Nat) (hD : D ≠ 0) (calls : List SaveCall)
    (hall : ∀ c ∈ calls, c.day? = some D) :
    ∀ (s : AppStore), (∀ n, (s.aiDecisionHistory n).length ≤ 10) →
      ∀ c ∈ calls, ∃ r ∈ (applySaveCalls s calls).aiDecisionHistory c.aiName, r.day = D := by
  induction calls with
  | nil => intro s _ c hc; cases hc
  | cons c cs ih =>
    intro s hlen c2 hc2
    have hday : c.day? = some D := hall c (List.mem_cons_self c cs)
    have hstep : applySaveCalls s (c :: cs)
        = applySaveCalls (saveAIDecisionToHistory s c.aiName c.decision c.day? c.now) cs := rfl
    have hlen1 : ∀ m, ((saveAIDecisionToHistory s c.aiName c.decision c.day? c.now).aiDecisionHistory m).length ≤ 10 :=
      fun m => saveAIDecision_length_le s c.aiName c.decision c.day? c.now m (hlen m)
    rcases List.mem_cons.mp hc2 with h2 | h2
    · rw [hstep]
      refine applySaveCalls_day_persist D hD cs
        (fun c3 hc3 => hall c3 (List.mem_cons_of_mem c hc3)) _ hlen1 c2.aiName ?_
      rw [h2, hday]
      exact saveAIDecision_mem_day s c.aiName c.decision c.now D hD (hlen c.aiName)
    · rw [hstep]
      exact ih (fun c3 hc3 => hall c3 (List.mem_cons_of_mem c hc3)) _ hlen1 c2 h2

/-- C2: on every observed running→settled transition (previous
`running` recorded as true, fetched `running` false), the settlement
effect issues exactly one history write per entry of the fetched
per-agent live status list, every write targets day
`max(1, liveState.day)`, and after the effect every listed agent's
decision history holds a record for that day (lists being within the
10-record cap beforehand). -/
theorem settlement_transition_writes (s : AppStore)
    (aiDecisions : String → Option AIDecision) (now : Int)
    (hrun : s.liveState.running = false) (hlast : s.lastRunningState = true)
    (hlen : ∀ n, (s.aiDecisionHistory n).length ≤ 10) :
    ((settlementCalls s.liveState aiDecisions now).length
        = s.liveState.current_ai_states.length) ∧
    (∀ c ∈ settlementCalls s.liveState aiDecisions now,
        c.day? = some (max 1 s.liveState.day)) ∧
    (∀ a ∈ s.liveState.current_ai_states,
        ∃ r ∈ (runSettlementEffect s aiDecisions now).aiDecisionHistory a.aiName,
          r.day = max 1 s.liveState.day) := by
  have hD0 : max 1 s.liveState.day ≠ 0 := by omega
  have hdays : ∀ c ∈ settlementCalls s.liveState aiDecisions now,
      c.day? = some (max 1 s.liveState.day) := by
    intro c hc
    rcases List.mem_map.mp hc with ⟨a, _, rfl⟩
    simp [settlementHistoryDay_eq_max]
  refine ⟨List.length_map _ _, hdays, ?_⟩
  intro a ha
  have hne : s.liveState.current_ai_states ≠ [] := by
    intro hnil
    rw [hnil] at ha
    cases ha
  have heff : runSettlementEffect s aiDecisions now
      = applySaveCalls s (settlementCalls s.liveState aiDecisions now) := by
    unfold runSettlementEffect
    rw [hrun]
    simp only [Bool.false_eq_true, if_false]
    rw [if_pos ⟨by rw [hlast], hne⟩]
  rw [heff]
  have hc : ({ aiName := a.aiName
               decision := settlementDecisionInput a aiDecisions
               day? := some (settlementHistoryDay s.liveState.day)
               now := now } : SaveCall) ∈ settlementCalls s.liveState aiDecisions now :=
    List.mem_map_of_mem _ ha
  exact applySaveCalls_mem_day (max 1 s.liveState.day) hD0 _ hdays s hlen _ hc

/-- C2 witness: a concrete settled day-6 store — the single
settlement write targets day `max(1,6) = 6` (not 7) and leaves a
day-6 record for the listed agent. -/
theorem settlement_transition_writes_witness :
    ((settlementCalls settledDay6Store.liveState (fun _ => none) 70).length
        = settledDay6Store.liveState.current_ai_states.length) ∧
    (∀ c ∈ settlementCalls settledDay6Store.liveState (fun _ => none) 70,
        c.day? = some 6) ∧
    (∃ r ∈ (runSettlementEffect settledDay6Store (fun _ => none) 70).aiDecisionHistory "Alpha",
        r.day = 6) := by
  have h := settlement_transition_writes settledDay6Store (fun _ => none) 70
    (by decide) (by decide) (fun n => by simp [settledDay6Store, initialAppStore])
  have hmax : max 1 settledDay6Store.liveState.day = 6 := by decide
  refine ⟨h.1, ?_, ?_⟩
  · intro c hc
    rw [h.2.1 c hc, hmax]
  · have := h.2.2 alphaLiveEntry (by simp [settledDay6Store])
    rw [hmax] at this
    exact this

/-- Replacing an existing key leaves the key list unchanged. -/
theorem mapSet_keys_replace {α : Type} (m : List (String × α)) (k : String) (v : α)
    (h : m.any (fun p => decide (p.1 = k)) = true) :
    (mapSet m k v).map Prod.fst = m.map Prod.fst := by
  unfold mapSet
  rw [if_pos h, List.map_map]
  refine List.map_congr_left ?_
  intro p hp
  by_cases hpk : p.1 = k
  · simp [Function.comp, hpk]
  · simp [Function.comp, hpk]

/-- `mapSet` preserves distinctness of the keys. -/
theorem mapSet_keys_nodup {α : Type} (m : List (String × α)) (k : String) (v : α)
    (h : (m.map Prod.fst).Nodup) : ((mapSet m k v).map Prod.fst).Nodup := by
  by_cases hany : m.any (fun p => decide (p.1 = k)) = true
  · rw [mapSet_keys_replace m k v hany]
    exact h
  · have hfalse : m.any (fun p => decide (p.1 = k)) = false :=
      Bool.eq_false_iff.mpr hany
    have happ : mapSet m k v = m ++ [(k, v)] := by
      unfold mapSet
      rw [if_neg hany]
    have hnotin : k ∉ m.map Prod.fst := by
      intro hk
      rcases List.mem_map.mp hk with ⟨p, hp, hpk⟩
      have hne := List.any_eq_false.mp hfalse p hp
      simp only [decide_eq_true_eq] at hne
      exact hne hpk
    rw [happ, List.map_append]
    refine ((List.perm_append_singleton _ _).nodup_iff).mpr ?_
    rw [List.nodup_cons]
    exact ⟨by simpa using hnotin, h⟩

/-- `mapSet` with an entry's own key preserves the invariant that
every stored value carries its key. -/
theorem mapSet_kv {α : Type} (key : α → String) (m : List (String × α)) (v : α)
    (hm : ∀ p ∈ m, key p.2 = p.1) :
    ∀ p ∈ mapSet m (key v) v, key p.2 = p.1 := by
  intro p hp
  unfold mapSet at hp
  by_cases hany : m.any (fun q => decide (q.1 = key v)) = true
  · rw [if_pos hany] at hp
    rcases List.mem_map.mp hp with ⟨q, hq, rfl⟩
    by_cases hqk : q.1 = key v
    · simp [hqk]
    · simp only [if_neg hqk]
      exact hm q hq
  · rw [if_neg hany] at hp
    rcases List.mem_append.mp hp with h | h
    · exact hm p h
    · have : p = (key v, v) := by simpa using h
      rw [this]

/-- For the lookup predicate, composing with the replacement function
of `mapSet` changes nothing. -/
theorem mapSet_replace_pred {α : Type} (k k2 : String) (v : α) :
    ((fun p : String × α => decide (p.1 = k2)) ∘ (fun p => if p.1 = k then (k, v) else p))
      = fun p : String × α => decide (p.1 = k2) := by
  funext p
  by_cases hp : p.1 = k
  · simp [Function.comp, hp]
  · simp [Function.comp, hp]

/-- After `mapSet m k v`, looking up `k` yields `v`. -/
theorem mapSet_get_self {α : Type} (m : List (String × α)) (k : String) (v : α) :
    mapGet (mapSet m k v) k = some v := by
  unfold mapGet mapSet
  by_cases hany : m.any (fun p => decide (p.1 = k)) = true
  · rw [if_pos hany, List.find?_map, mapSet_replace_pred]
    rcases List.any_eq_true.mp hany with ⟨q, hq, hqk⟩
    have hsome : (m.find? (fun p => decide (p.1 = k))).isSome = true :=
      List.find?_isSome.mpr ⟨q, hq, hqk⟩
    rcases Option.isSome_iff_exists.mp hsome with ⟨q2, hq2⟩
    have hq2k : q2.1 = k := by simpa using List.find?_some hq2
    rw [hq2]
    simp [hq2k]
  · have hnone : m.find? (fun p => decide (p.1 = k)) = none := by
      rw [List.find?_eq_none]
      intro x hx
      have hfalse : m.any (fun p => decide (p.1 = k)) = false :=
        Bool.eq_false_iff.mpr hany
      simpa using List.any_eq_false.mp hfalse x hx
    rw [if_neg hany, List.find?_append, hnone]
    simp

/-- After `mapSet m k v`, looking up any other key is unchanged. -/
theorem mapSet_get_other {α : Type} (m : List (String × α)) (k k2 : String) (v : α)
    (hk : k2 ≠ k) : mapGet (mapSet m k v) k2 = mapGet m k2 := by
  unfold mapGet mapSet
  by_cases hany : m.any (fun p => decide (p.1 = k)) = true
  · rw [if_pos hany, List.find?_map, mapSet_replace_pred]
    cases hf : m.find? (fun p => decide (p.1 = k2)) with
    | none => simp
    | some q =>
      have hqk2 : q.1 = k2 := by simpa using List.find?_some hf
      have hqk : ¬ q.1 = k := by
        rw [hqk2]
        exact hk
      simp [hqk]
  · rw [if_neg hany, List.find?_append]
    have hlast : List.find? (fun p : String × α => decide (p.1 = k2)) [(k, v)] = none := by
      rw [List.find?_eq_none]
      intro x hx
      have : x = (k, v) := by simpa using hx
      rw [this]
      simpa using fun h => hk h.symm
    rw [hlast]
    simp

/-- Inserting elements none of which carries key `k` leaves the
lookup of `k` unchanged. -/
theorem mapSetAll_get_not_mem {α : Type} (key : α → String) (l : List α) (k : String)
    (hk : k ∉ l.map key) :
    ∀ m, mapGet (mapSetAll key m l) k = mapGet m k := by
  induction l with
  | nil => intro m; rfl
  | cons x xs ih =>
    intro m
    rw [List.map_cons, List.mem_cons] at hk
    push_neg at hk
    have hstep : mapSetAll key m (x :: xs) = mapSetAll key (mapSet m (key x) x) xs := rfl
    rw [hstep, ih hk.2]
    exact mapSet_get_other m (key x) k x hk.1

/-- Inserting a list of elements with pairwise-distinct keys makes
each element retrievable under its own key. -/
theorem mapSetAll_get_self {α : Type} (key : α → String) (l : List α)
    (hnodup : (l.map key).Nodup) :
    ∀ (m : List (String × α)) (v : α), v ∈ l →
      mapGet (mapSetAll key m l) (key v) = some v := by
  induction l with
  | nil => intro m v hv; cases hv
  | cons x xs ih =>
    intro m v hv
    rw [List.map_cons, List.nodup_cons] at hnodup
    have hstep : mapSetAll key m (x :: xs) = mapSetAll key (mapSet m (key x) x) xs := rfl
    rw [hstep]
    rcases List.mem_cons.mp hv with rfl | hv2
    · rw [mapSetAll_get_not_mem key xs (key v) hnodup.1 _]
      exact mapSet_get_self m (key v) v
    · exact ih hnodup.2 _ v hv2

/-- A successful lookup is one of the map's values. -/
theorem mapGet_mem_values {α : Type} (m : List (String × α)) (k : String) (v : α)
    (h : mapGet m k = some v) : v ∈ mapValues m := by
  unfold mapGet at h
  cases hf : m.find? (fun p => decide (p.1 = k)) with
  | none =>
    rw [hf] at h
    cases h
  | some q =>
    rw [hf] at h
    have hq : q ∈ m := List.mem_of_find?_eq_some hf
    have hqv : q.2 = v := by simpa using h
    rw [← hqv]
    exact List.mem_map_of_mem Prod.snd hq

/-- `mapSetAll` preserves key distinctness and the key-value
invariant. -/
theorem mapSetAll_preserves {α : Type} (key : α → String) (l : List α) :
    ∀ (m : List (String × α)),
      (m.map Prod.fst).Nodup → (∀ p ∈ m, key p.2 = p.1) →
      ((mapSetAll key m l).map Prod.fst).Nodup ∧
        (∀ p ∈ mapSetAll key m l, key p.2 = p.1) := by
  induction l with
  | nil => exact fun m h1 h2 => ⟨h1, h2⟩
  | cons x xs ih =>
    intro m h1 h2
    exact ih _ (mapSet_keys_nodup m (key x) x h1) (mapSet_kv key m x h2)

/-- Folding `mapSetAll` over a bucket list preserves key
distinctness and the key-value invariant. -/
theorem foldl_buckets_preserves {β α : Type} (key : α → String) (f : β → List α)
    (buckets : List β) :
    ∀ (m : List (String × α)),
      (m.map Prod.fst).Nodup → (∀ p ∈ m, key p.2 = p.1) →
      (((buckets.foldl (fun m b => mapSetAll key m (f b)) m).map Prod.fst).Nodup ∧
        (∀ p ∈ buckets.foldl (fun m b => mapSetAll key m (f b)) m, key p.2 = p.1)) := by
  induction buckets with
  | nil => exact fun m h1 h2 => ⟨h1, h2⟩
  | cons b bs ih =>
    intro m h1 h2
    have h := mapSetAll_preserves key (f b) m h1 h2
    exact ih _ h.1 h.2

/-- Under the key-value invariant, mapping the key over the values
gives exactly the key list. -/
theorem mapValues_map_key {α : Type} (key : α → String) (m : List (String × α))
    (h : ∀ p ∈ m, key p.2 = p.1) : (mapValues m).map key = m.map Prod.fst := by
  unfold mapValues
  rw [List.map_map]
  exact List.map_congr_left (fun p hp => h p hp)

/-- Merging buckets then a current list with pairwise-distinct keys
into a unique-key map and sorting the values yields: distinct keys,
every current element present (current wins), and a list sorted
descending by the sort key. -/
theorem merged_view_spec {α : Type} (key : α → String) (sortKey : α → Int)
    (buckets : List (List α)) (current : List α)
    (hcur : (current.map key).Nodup) :
    (((mapValues (mapSetAll key (buckets.foldl (fun m b => mapSetAll key m b) []) current)).mergeSort
        (fun a b => decide (sortKey b ≤ sortKey a))).map key).Nodup ∧
    (∀ v ∈ current,
      v ∈ (mapValues (mapSetAll key (buckets.foldl (fun m b => mapSetAll key m b) []) current)).mergeSort
        (fun a b => decide (sortKey b ≤ sortKey a))) ∧
    ((mapValues (mapSetAll key (buckets.foldl (fun m b => mapSetAll key m b) []) current)).mergeSort
        (fun a b => decide (sortKey b ≤ sortKey a))).Pairwise (fun a b => sortKey b ≤ sortKey a) := by
  have hbase : (((buckets.foldl (fun m b => mapSetAll key m b) []).map Prod.fst).Nodup ∧
      (∀ p ∈ buckets.foldl (fun m b => mapSetAll key m b) [], key p.2 = p.1)) :=
    foldl_buckets_preserves key (fun b => b) buckets [] (by simp) (by simp)
  have hfin := mapSetAll_preserves key current _ hbase.1 hbase.2
  refine ⟨?_, ?_, ?_⟩
  · have hperm := ((List.mergeSort_perm
      (mapValues (mapSetAll key (buckets.foldl (fun m b => mapSetAll key m b) []) current))
      (fun a b => decide (sortKey b ≤ sortKey a))).map key)
    rw [hperm.nodup_iff, mapValues_map_key key _ hfin.2]
    exact hfin.1
  · intro v hv
    rw [List.mem_mergeSort]
    exact mapGet_mem_values _ (key v) v (mapSetAll_get_self key current hcur _ v hv)
  · refine (List.sorted_mergeSort ?_ ?_ _).imp ?_
    · intro a b c hab hbc
      simp only [decide_eq_true_eq] at hab hbc ⊢
      omega
    · intro a b
      simp only [Bool.or_eq_true, decide_eq_true_eq]
      omega
    · intro a b h
      simpa using h

/-- C5: for every store whose current in-flight collections have
pairwise-distinct ids, the merged read views `getAllProposals` and
`getAllEvents` contain no two entries with the same id, contain
every current in-flight entry (so whenever a historical bucket and
the current collection share an id, the returned entry carries the
current entry's field values), and are sorted descending by
`createdAt` (proposals) and `timestamp` (events). -/
theorem merged_views_dedup_current_wins_sorted (s : AppStore)
    (hp : (s.proposals.map Proposal.id).Nodup)
    (he : (s.events.map GameEvent.id).Nodup) :
    (((getAllProposals s).map Proposal.id).Nodup ∧
      (∀ p ∈ s.proposals, p ∈ getAllProposals s) ∧
      (getAllProposals s).Pairwise (fun a b => b.createdAt ≤ a.createdAt)) ∧
    (((getAllEvents s).map GameEvent.id).Nodup ∧
      (∀ ev ∈ s.events, ev ∈ getAllEvents s) ∧
      (getAllEvents s).Pairwise (fun a b => b.timestamp ≤ a.timestamp)) := by
  constructor
  · have h := merged_view_spec Proposal.id Proposal.createdAt
      ((s.history.map Prod.snd).map DayBucket.proposals) s.proposals hp
    rw [List.foldl_map] at h
    exact h
  · have h := merged_view_spec GameEvent.id GameEvent.timestamp
      ((s.history.map Prod.snd).map DayBucket.events) s.events he
    rw [List.foldl_map] at h
    exact h

/-- C5 witness: on a concrete store whose day-1 bucket and current
collections share the ids `p1` and `e1`, the merged views are
id-deduplicated, contain the current versions, and are sorted
descending. -/
theorem merged_views_dedup_current_wins_sorted_witness :
    (((getAllProposals mergedViewsStore).map Proposal.id).Nodup ∧
      (∀ p ∈ mergedViewsStore.proposals, p ∈ getAllProposals mergedViewsStore) ∧
      (getAllProposals mergedViewsStore).Pairwise (fun a b => b.createdAt ≤ a.createdAt)) ∧
    (((getAllEvents mergedViewsStore).map GameEvent.id).Nodup ∧
      (∀ ev ∈ mergedViewsStore.events, ev ∈ getAllEvents mergedViewsStore) ∧
      (getAllEvents mergedViewsStore).Pairwise (fun a b => b.timestamp ≤ a.timestamp)) :=
  merged_views_dedup_current_wins_sorted mergedViewsStore (by decide) (by decide)

/-- C6, counterexample: the backend fraction 0 (which satisfies
`0 ≤ e ≤ 1`) is exposed as 100, not as `round(0 * 100) = 0`: the
conversion guards with a JS truthiness test, so a zero fraction
falls to the `: 100` default branch. -/
theorem systemEfficiency_zero_fraction_counterexample :
    (getSystemStatus (some { systemEfficiency := some 0 })).systemEfficiency = 100 ∧
    jsMathRound ((0 : ℚ) * 100) = 0 ∧
    (getSystemStatus (some { systemEfficiency := some 0 })).systemEfficiency ≠
      jsMathRound ((0 : ℚ) * 100) := by
  have h1 : (getSystemStatus (some { systemEfficiency := some 0 })).systemEfficiency = 100 := rfl
  have h2 : jsMathRound ((0 : ℚ) * 100) = 0 := by norm_num [jsMathRound]
  refine ⟨h1, h2, ?_⟩
  rw [h1, h2]
  decide

/-- C6, amended: for every backend efficiency fraction `e` with
`0 < e ≤ 1` received on the status endpoint, the client-exposed
`systemEfficiency` equals `Math.round(e * 100)`; a fraction of
exactly 0 is falsy in JS and yields the default 100 instead. -/
theorem systemEfficiency_rounding (e : ℚ) (h0 : 0 < e) (h1 : e ≤ 1) :
    (getSystemStatus (some { systemEfficiency := some e })).systemEfficiency
      = jsMathRound (e * 100) ∧
    (getSystemStatus (some { systemEfficiency := some 0 })).systemEfficiency = 100 := by
  have hne : e ≠ 0 := ne_of_gt h0
  exact ⟨by simp [getSystemStatus, safeApiCall, hne], rfl⟩

/-- C6 witness: the fraction 0.842 = 421/500 satisfies the bounds
and is exposed as the integer percentage 84. -/
theorem systemEfficiency_rounding_witness :
    ((0 : ℚ) < 421/500 ∧ (421 : ℚ)/500 ≤ 1) ∧
    (getSystemStatus (some { systemEfficiency := some (421/500) })).systemEfficiency = 84 := by
  refine ⟨⟨by norm_num, by norm_num⟩, ?_⟩
  rw [(systemEfficiency_rounding (421/500) (by norm_num) (by norm_num)).1]
  norm_num [jsMathRound]

/-- C7, counterexample: a decision in the thinking phase with an
EMPTY reasoning text and an empty action list produces 0 steps, not
2 — the source gates the whole thinking branch on
`decision?.thinking` being truthy. -/
theorem deriveSteps_empty_thinking_counterexample :
    deriveSteps (statusOfPhase true "thinking" false) (some emptyThinkingDecision) 0 = [] ∧
    (deriveSteps (statusOfPhase true "thinking" false) (some emptyThinkingDecision) 0).length ≠ 2 := by
  refine ⟨rfl, by decide⟩

/-- C7, amended: for every decision whose agent is in the thinking
phase, whose reasoning text is non-empty and whose planned action
list is empty, the step derivation produces exactly 2 steps: one
`think` step carrying the decision's reasoning text, then one
synthetic `do_nothing` step. -/
theorem deriveSteps_thinking_empty_actions (d : AIDecision) (now : Int)
    (running isActing : Bool) (hthink : d.thinking ≠ "") (hact : d.actions = []) :
    deriveSteps (statusOfPhase running "thinking" isActing) (some d) now =
      [{ type := "think"
         content := "决策原因：" ++ d.thinking
         timestamp := now
         isImportant := some true },
       { type := "do_nothing"
         content := "行动原因：无行动"
         timestamp := now + 500
         isCollapsed := some false }] := by
  have hst : statusOfPhase running "thinking" isActing = "thinking" := rfl
  rw [hst]
  unfold deriveSteps
  simp [hact, hthink]

/-- C7 witness: a concrete thinking-phase decision with non-empty
reasoning and no actions yields exactly the think step and the
synthetic `do_nothing` step. -/
theorem deriveSteps_thinking_empty_actions_witness :
    deriveSteps (statusOfPhase true "thinking" false) (some demoThinkingDecision) 0 =
      [{ type := "think"
         content := "决策原因：" ++ demoThinkingDecision.thinking
         timestamp := 0
         isImportant := some true },
       { type := "do_nothing"
         content := "行动原因：无行动"
         timestamp := 0 + 500
         isCollapsed := some false }] :=
  deriveSteps_thinking_empty_actions demoThinkingDecision 0 true false (by decide) rfl

/-- C8: the clamping claim fails in the code — a west-handle resize
with a large rightward pointer delta moves the overlay past the
right viewport edge.  Starting from an overlay fully inside a
1024x768 viewport (x=500, y=100, 300x200), a west resize-move with
pointer delta (+600, 0) yields x = 1100 and width = 200, so
x + width = 1300 > 1024 - 10: the resulting rectangle lies entirely
outside the viewport, although the source's comment above the
boundary block states the intent of keeping it inside. -/
theorem resizeMove_west_escapes_viewport :
    (westResizeTooltip.x ≥ 10 ∧
     westResizeTooltip.x + westResizeTooltip.width ≤ 1024 - 10 ∧
     westResizeTooltip.y ≥ 10 ∧
     westResizeTooltip.y + westResizeTooltip.height ≤ 768 - 10) ∧
    ((handleResizeMove westResizeTooltip 1024 768 1110 210).x = 1100 ∧
     (handleResizeMove westResizeTooltip 1024 768 1110 210).width = 200 ∧
     (handleResizeMove westResizeTooltip 1024 768 1110 210).x
       + (handleResizeMove westResizeTooltip 1024 768 1110 210).width > 1024 - 10) := by
  decide

/-- C9, counterexample: with a drag active, a mouse-down outside the
overlay does NOT close it — the outside-click handler bails out when
`isDragging` or `isResizing` is set, so the close is not
unconditional. -/
theorem clickOutside_during_drag_counterexample :
    handleClickOutside (some draggingTooltip) false = some draggingTooltip ∧
    handleClickOutside (some draggingTooltip) false ≠ none := by
  refine ⟨rfl, by decide⟩

/-- C9, amended: a press of the Escape key closes the overlay
unconditionally, and a mouse-down outside the overlay closes it
provided no drag or resize interaction is currently active. -/
theorem overlay_close_semantics :
    (∀ (tooltip : Option TooltipState), handleEscKey tooltip "Escape" = none) ∧
    (∀ (t : TooltipState), t.isDragging = false → t.isResizing = false →
      handleClickOutside (some t) false = none) := by
  constructor
  · intro tooltip
    rfl
  · intro t hd hr
    simp [handleClickOutside, hd, hr]

/-- C9 witness: Escape closes a concrete open overlay, and an
outside press closes a concrete idle (no drag, no resize) overlay. -/
theorem overlay_close_semantics_witness :
    handleEscKey (some draggingTooltip) "Escape" = none ∧
    handleClickOutside (some { draggingTooltip with isDragging := false, dragOffset := none }) false
      = none :=
  ⟨overlay_close_semantics.1 (some draggingTooltip),
   overlay_close_semantics.2 { draggingTooltip with isDragging := false, dragOffset := none } rfl rfl⟩

/-- C10: the persisted record omits the day-keyed history bucket
map.  A save/reload round-trip restores `aiDecisionHistory`,
`proposals`, `events`, `voteAnalyses` and `systemState` unchanged
but leaves `history` empty, so the merged read views of the restored
store equal the views of the original store with its history bucket
map erased — only the current in-flight collections remain. -/
theorem persist_roundtrip_drops_history (s : AppStore) :
    (rehydrate (partialize s)).aiDecisionHistory = s.aiDecisionHistory ∧
    (rehydrate (partialize s)).proposals = s.proposals ∧
    (rehydrate (partialize s)).events = s.events ∧
    (rehydrate (partialize s)).voteAnalyses = s.voteAnalyses ∧
    (rehydrate (partialize s)).systemState = s.systemState ∧
    (rehydrate (partialize s)).history = [] ∧
    getAllProposals (rehydrate (partialize s)) = getAllProposals { s with history := [] } ∧
    getAllEvents (rehydrate (partialize s)) = getAllEvents { s with history := [] } ∧
    getAllVoteAnalyses (rehydrate (partialize s)) = getAllVoteAnalyses { s with history := [] } :=
  ⟨rfl, rfl, rfl, rfl, rfl, rfl, rfl, rfl, rfl⟩

end ShelterUI
